import Mathlib

/-!
Verification development for the query-to-aggregation engine of the
Cell-Byte "Chat with Data" repository.

The server code (src/server/api/routers/data.ts, src/lib/sample-data.ts) is
JavaScript/TypeScript.  We shallowly embed the relevant functions:

* rows are association lists from column names to scalar JS values;
* JS numbers are modelled exactly as rationals, represented by
  numerator/denominator pairs (`JSRat`) with executable, kernel-reducible
  arithmetic; every concrete number in the claims is a small integer
  (denominator 1), where IEEE double arithmetic is exact and the
  representation is canonical, so record equality in theorem statements
  coincides with JS number equality on all values the claims exercise;
  order comparisons (`jrLe`) compare the represented rationals by
  cross-multiplication, so sorting is semantic;
* `parseFloat` / `Number` are modelled by executable parsers over the
  decimal fragment; `NaN` is a distinguished parse outcome
  (`JSNum.nan`), `Infinity` is `JSNum.inf` (infinities are outside the
  rational value model and are noted where they matter);
* fallible lookups return `Option`;
* string lowercasing and prefix tests are implemented over character
  lists (`strLower`, `strStartsWith`) — extensionally the ASCII behaviour
  of `toLowerCase` / prefix matching used by the source.

The file follows the structure of the source: `data.ts` contains several
concatenated revisions of the router; the embedded definitions name which
revision (by line range) they are taken from.
-/

/-- An exact rational: JS number `num / den`.  Every value constructed by
the embedded code has `den > 0`; integers are always represented with
`den = 1`. -/
structure JSRat where
  num : Int
  den : Nat
  deriving DecidableEq, Repr

/-- The JS number 0. -/
def jrZero : JSRat := ⟨0, 1⟩

/-- Exact rational addition (no normalisation; denominators multiply). -/
def jrAdd (a b : JSRat) : JSRat :=
  ⟨a.num * b.den + b.num * a.den, a.den * b.den⟩

/-- Exact rational division.  Division by zero yields denominator 0 (JS
would produce ±Infinity/NaN); every division performed by the embedded
code is guarded by a positivity check, so this case is unreachable. -/
def jrDiv (a b : JSRat) : JSRat :=
  if b.num < 0 then ⟨-(a.num * b.den), a.den * b.num.natAbs⟩
  else ⟨a.num * b.den, a.den * b.num.natAbs⟩

/-- Negation. -/
def jrNeg (a : JSRat) : JSRat := ⟨-a.num, a.den⟩

/-- Multiply by `10^e` for an integer exponent (used by the `parseFloat`
model for exponent parts). -/
def jrMulPow10 (a : JSRat) (e : Int) : JSRat :=
  if 0 ≤ e then ⟨a.num * (10 : Int) ^ e.toNat, a.den⟩
  else ⟨a.num, a.den * 10 ^ (-e).toNat⟩

/-- Semantic strict order on represented rationals (valid for the
positive denominators maintained by the embedding): `a < b` by
cross-multiplication. -/
def jrLt (a b : JSRat) : Bool :=
  a.num * (b.den : Int) < b.num * (a.den : Int)

/-- A JS scalar value as it occurs in dataset rows and result records:
a (finite) number, a string, a boolean, or null.  `undefined` (absent
property) is represented by `Option.none` at lookup sites. -/
inductive Value where
  | num (q : JSRat)
  | str (s : String)
  | bool (b : Bool)
  | null
  deriving DecidableEq, Repr

/-- A row / record: an association list from property names to values,
with the JS object property order (insertion order) made explicit.
Keys are assumed distinct, as they are for JS object literals. -/
abbrev Row := List (String × Value)

/-- JS property read `row[k]`: first binding of `k`, `none` = `undefined`. -/
def lookupVal : Row → String → Option Value
  | [], _ => none
  | (k', v) :: rest, k => if k' = k then some v else lookupVal rest k

/-- JS property write `row[k] = v`: replace in place if the key exists
(keeping its position, as JS objects do), otherwise append. -/
def jsSet : Row → String → Value → Row
  | [], k, v => [(k, v)]
  | (k', v') :: rest, k, v =>
      if k' = k then (k', v) :: rest else (k', v') :: jsSet rest k v

/-- JS truthiness of a value (`0`, `""`, `false`, `null` are falsy;
`NaN` does not occur as a stored `Value` in this model). -/
def jsTruthy : Value → Bool
  | .num q => q.num != 0
  | .str s => s != ""
  | .bool b => b
  | .null => false

/-- Contiguous-sublist test on character lists. -/
def listIsInfix (pat : List Char) : List Char → Bool
  | [] => pat.isEmpty
  | c :: rest => pat.isPrefixOf (c :: rest) || listIsInfix pat rest

/-- Substring test, modelling JS `String.prototype.includes`. -/
def containsSub (s pat : String) : Bool :=
  listIsInfix pat.toList s.toList

/-- ASCII lowercasing, modelling JS `toLowerCase` on the ASCII strings
(column names, queries, SQL) this code manipulates. -/
def strLower (s : String) : String :=
  String.mk (s.toList.map Char.toLower)

/-- String prefix test over character lists. -/
def strStartsWith (pre s : String) : Bool :=
  pre.toList.isPrefixOf s.toList

/-- ASCII whitespace, the fragment of the JS `\s` / `StrWhiteSpace`
classes exercised by this code (column names and SQL strings are ASCII). -/
def isWsChar (c : Char) : Bool :=
  c = ' ' || c = '\t' || c = '\n' || c = '\r' || c = '\x0b' || c = '\x0c'

/-- Numeric value of a list of decimal digit characters. -/
def digitsToNat (ds : List Char) : Nat :=
  ds.foldl (fun a c => a * 10 + (c.toNat - '0'.toNat)) 0

/-- Decimal digits of the fractional part of `r / d` by long division,
up to `fuel` digits, stopping when the remainder vanishes. -/
def fracDigits : Nat → Nat → Nat → List Char
  | 0, _, _ => []
  | _, 0, _ => []
  | fuel + 1, r, d =>
      let r10 := r * 10
      Char.ofNat ('0'.toNat + r10 / d) :: fracDigits fuel (r10 % d) d

/-- JS `String(x)` for a number.  Integers (the only numbers the claims
exercise) print exactly as in JS; for non-integers we print a decimal
expansion truncated at 17 digits — JS's shortest-round-trip double
formatting is not modelled beyond that, and no claim depends on it. -/
def ratToString (q : JSRat) : String :=
  if q.den = 1 then toString q.num
  else
    (if q.num < 0 then "-" else "") ++ toString (q.num.natAbs / q.den) ++ "." ++
      String.mk (fracDigits 17 (q.num.natAbs % q.den) q.den)

/-- JS `String(v)` coercion for the value model. -/
def jsToString : Value → String
  | .num q => ratToString q
  | .str s => s
  | .bool true => "true"
  | .bool false => "false"
  | .null => "null"

/-- Outcome of JS numeric parsing: NaN, an infinity, or a finite value. -/
inductive JSNum where
  | nan
  | inf (neg : Bool)
  | fin (q : JSRat)
  deriving DecidableEq, Repr

/-- Strip an optional leading sign; returns (negative?, rest). -/
def stripSign : List Char → Bool × List Char
  | '-' :: r => (true, r)
  | '+' :: r => (false, r)
  | r => (false, r)

/-- JS `parseFloat` on a string: skip leading whitespace, optional sign,
then the longest prefix that is `Infinity` or a decimal literal
(digits, optional fraction, optional exponent); `NaN` if no such prefix. -/
def parseJSFloat (s : String) : JSNum :=
  let cs := s.toList.dropWhile isWsChar
  let (neg, body) := stripSign cs
  if "Infinity".toList.isPrefixOf body then JSNum.inf neg
  else
    let (ip, r1) := body.span (fun c : Char => c.isDigit)
    let (fp, r2) :=
      match r1 with
      | '.' :: rf => rf.span (fun c : Char => c.isDigit)
      | _ => ([], r1)
    if ip.isEmpty && fp.isEmpty then JSNum.nan
    else
      let mant : JSRat :=
        ⟨(digitsToNat ip * 10 ^ fp.length + digitsToNat fp : Nat), 10 ^ fp.length⟩
      let exp : ℤ :=
        match r2 with
        | e :: rest =>
            if e = 'e' || e = 'E' then
              let (eneg, r3) := stripSign rest
              let (eds, _) := r3.span (fun c : Char => c.isDigit)
              if eds.isEmpty then 0
              else if eneg then -(digitsToNat eds : ℤ) else (digitsToNat eds : ℤ)
            else 0
        | [] => 0
      let mag : JSRat := jrMulPow10 mant exp
      JSNum.fin (if neg then jrNeg mag else mag)

/-- JS `parseFloat(v)` on a value.  JS first coerces the argument to a
string; for a number that string round-trips to the same double, so the
`num` case returns the value directly. -/
def parseFloatValue : Value → JSNum
  | .num q => JSNum.fin q
  | v => parseJSFloat (jsToString v)

/-- JS `parseFloat(row[f])`: a missing property is `undefined`, which
coerces to the string "undefined" and parses to NaN. -/
def parseFloatAt (row : Row) (f : String) : JSNum :=
  match lookupVal row f with
  | some v => parseFloatValue v
  | none => JSNum.nan

/-- The `x || 0` pattern applied to a `parseFloat` result: NaN (falsy)
becomes 0, a finite value stays itself.  An infinity is outside the
rational model; it is mapped to 0 here, which is only reachable for
data whose aggregate field literally parses to ±Infinity — no claim
and no shipped dataset exercises that case. -/
def jsNumOrZero : JSNum → JSRat
  | .fin q => q
  | _ => jrZero

/-- Full-string exponent-part check for JS `Number(...)`:
`exp = (e|E) [sign] digits`, or nothing. -/
def decExpOk : List Char → Bool
  | [] => true
  | e :: rest =>
      if e = 'e' || e = 'E' then
        let (_, r) := stripSign rest
        let (ds, tail) := r.span (fun c : Char => c.isDigit)
        !ds.isEmpty && tail.isEmpty
      else false

/-- Decimal-literal body check (no sign) for JS `Number(...)`:
`digits [. digits] [exp]` or `. digits [exp]`. -/
def decBodyOk (cs : List Char) : Bool :=
  let (ip, r1) := cs.span (fun c : Char => c.isDigit)
  if ip.isEmpty then
    match r1 with
    | '.' :: r2 =>
        let (fp, r3) := r2.span (fun c : Char => c.isDigit)
        !fp.isEmpty && decExpOk r3
    | _ => false
  else
    match r1 with
    | [] => true
    | '.' :: r2 =>
        let (_, r3) := r2.span (fun c : Char => c.isDigit)
        decExpOk r3
    | r => decExpOk r

/-- Radix-literal check (`0x…`, `0o…`, `0b…`) for JS `Number(...)`. -/
def radixOk (cs : List Char) : Bool :=
  match cs with
  | '0' :: x :: rest =>
      if x = 'x' || x = 'X' then
        !rest.isEmpty && rest.all (fun c =>
          c.isDigit || ('a' ≤ c && c ≤ 'f') || ('A' ≤ c && c ≤ 'F'))
      else if x = 'o' || x = 'O' then !rest.isEmpty && rest.all (fun c => '0' ≤ c && c ≤ '7')
      else if x = 'b' || x = 'B' then !rest.isEmpty && rest.all (fun c => c = '0' || c = '1')
      else false
  | _ => false

/-- `isNaN(Number(s))` for a string: the whole (trimmed) string must be
empty (`Number("") = 0`), `Infinity` with optional sign, a signed
decimal literal, or an unsigned radix literal; anything else is NaN. -/
def jsNumberIsNaN (s : String) : Bool :=
  let t := ((s.toList.dropWhile isWsChar).reverse.dropWhile isWsChar).reverse
  if t.isEmpty then false
  else
    let (signed, body) :=
      match t with
      | '-' :: r => (true, r)
      | '+' :: r => (true, r)
      | r => (false, r)
    if body = "Infinity".toList then false
    else if !signed && radixOk body then false
    else !decBodyOk body

/-!
## Schema inferencer — `inferSchema` (src/lib/sample-data.ts, lines 122-155)

The date test of the source is `!isNaN(Date.parse(value)) && value.includes("-")`.
ECMAScript only mandates `Date.parse` behaviour on ISO 8601 strings; on other
inputs it is implementation-defined.  We therefore take the `Date.parse`
success predicate as a parameter `dp` of the embedding; theorems hold for
every `dp`, and concrete witnesses instantiate it with `isoDateOk` below.
-/

/-- One element of the inferred schema:
`{name, type, sample}` as produced by `inferSchema`. -/
structure ColumnDescriptor where
  name : String
  type : String
  sample : String
  deriving DecidableEq, Repr

/-- Classification of a single value by `inferSchema`
(src/lib/sample-data.ts, lines 129-145): numbers are "number", booleans
"boolean"; a string is "date" when `Date.parse` succeeds on it and it
contains "-", otherwise "number" when `Number(value)` is not NaN,
otherwise "string"; `null` (typeof "object") falls through to "string". -/
def classifyValue (dp : String → Bool) : Value → String
  | .num _ => "number"
  | .bool _ => "boolean"
  | .str s =>
      if dp s && containsSub s "-" then "date"
      else if !jsNumberIsNaN s then "number"
      else "string"
  | .null => "string"

/-- `inferSchema(data)` (src/lib/sample-data.ts, lines 122-155): empty
input yields the empty schema; otherwise one descriptor per key of the
first row, with `sample: String(value)`. -/
def inferSchema (dp : String → Bool) : List Row → List ColumnDescriptor
  | [] => []
  | firstRow :: _ =>
      firstRow.map (fun kv => ⟨kv.1, classifyValue dp kv.2, jsToString kv.2⟩)

/-- A concrete stand-in for the implementation-defined `Date.parse`
success predicate, accepting the ECMA-mandated `YYYY-MM-DD` date form
(with in-range month and day).  Used only to instantiate witnesses;
no counterexample below depends on its value. -/
def isoDateOk (s : String) : Bool :=
  match s.toList with
  | [y1, y2, y3, y4, '-', m1, m2, '-', d1, d2] =>
      [y1, y2, y3, y4, m1, m2, d1, d2].all (fun c : Char => c.isDigit) &&
      (1 ≤ digitsToNat [m1, m2] && digitsToNat [m1, m2] ≤ 12) &&
      (1 ≤ digitsToNat [d1, d2] && digitsToNat [d1, d2] ≤ 31)
  | _ => false

/-!
## Query intent and the Tier-2 deterministic resolver
(src/server/api/routers/data.ts, first revision, lines 278-387)
-/

/-- The structured interpretation of a query: the fields assembled by the
resolver plus the (display-only) SQL string.  Mirrors the fields
`sql / aggregationType / groupByField / aggregateField / chartType`. -/
structure QueryIntent where
  sql : String
  aggregationType : String
  groupByField : String
  aggregateField : String
  chartType : String
  deriving DecidableEq, Repr

/-- Column-name filter for cost-like fields (lines 359-362):
name contains "cost", "price", "value" or "amount" (case-insensitively). -/
def isCostCol (col : String) : Bool :=
  containsSub (strLower col) "cost" || containsSub (strLower col) "price" ||
  containsSub (strLower col) "value" || containsSub (strLower col) "amount"

/-- Column-name filter for category-like fields in the first-revision
resolver (lines 363-366): "indication", "treatment", "type" or "brand". -/
def isCategoryCol (col : String) : Bool :=
  containsSub (strLower col) "indication" || containsSub (strLower col) "treatment" ||
  containsSub (strLower col) "type" || containsSub (strLower col) "brand"

/-- Chart-type keyword rules (lines 352-356): trend/over time/time →
line; distribution/breakdown/pie → pie; otherwise bar.  `q` is the
already-lowercased query. -/
def tier2ChartType (q : String) : String :=
  if containsSub q "trend" || containsSub q "over time" || containsSub q "time" then "line"
  else if containsSub q "distribution" || containsSub q "breakdown" || containsSub q "pie" then "pie"
  else "bar"

/-- Group-by selection of the first-revision resolver (lines 368-376):
query mentions "indication" → first column containing "indication" (or
empty when none); likewise "treatment", then "brand"; otherwise the
first category-like column when one exists; otherwise empty. -/
def tier2GroupBy (q : String) (cols : List String) : String :=
  if containsSub q "indication" then
    (cols.find? (fun c => containsSub (strLower c) "indication")).getD ""
  else if containsSub q "treatment" then
    (cols.find? (fun c => containsSub (strLower c) "treatment")).getD ""
  else if containsSub q "brand" then
    (cols.find? (fun c => containsSub (strLower c) "brand")).getD ""
  else if !(cols.filter isCategoryCol).isEmpty then (cols.filter isCategoryCol).headD ""
  else ""

/-- Aggregation selection of the first-revision resolver (lines 378-386):
cost/sum/total → sum over the first cost-like column (empty when none);
average/avg → avg likewise; unique/distinct → count; default count. -/
def tier2Agg (q : String) (cols : List String) : String × String :=
  if containsSub q "cost" || containsSub q "sum" || containsSub q "total" then
    ("sum", (cols.filter isCostCol).headD "")
  else if containsSub q "average" || containsSub q "avg" then
    ("avg", (cols.filter isCostCol).headD "")
  else if containsSub q "unique" || containsSub q "distinct" then ("count", "")
  else ("count", "")

/-- The Tier-2 deterministic fallback resolver (lines 348-387 of the
first revision): lowercases the query and assembles chart type, group-by
field, aggregate field and aggregation type from keyword matches.  The
display SQL string is generated separately (`generateFallbackSQL`) and is
not part of the resolved fields; it is left empty here. -/
def resolveTier2 (query : String) (cols : List String) : QueryIntent :=
  let q := strLower query
  ⟨"", (tier2Agg q cols).1, tier2GroupBy q cols, (tier2Agg q cols).2, tier2ChartType q⟩

/-!
## Group-by selection of the third revision
(src/server/api/routers/data.ts, lines 859-905)

Cited by the claim on group-by column priority; this revision guards each
phrase match with existence of a matching column and uses the six-substring
category filter.
-/

/-- Category-like column filter of the third revision (lines 887-894):
"indication", "treatment", "type", "category", "brand" or "substance". -/
def isCategoryColV3 (col : String) : Bool :=
  containsSub (strLower col) "indication" || containsSub (strLower col) "treatment" ||
  containsSub (strLower col) "type" || containsSub (strLower col) "category" ||
  containsSub (strLower col) "brand" || containsSub (strLower col) "substance"

/-- Group-by selection of the third revision (lines 896-905): phrase
matches for "indication", "treatment" and "type" only (each requiring a
matching column to exist), then the first category-like column. -/
def selectGroupByFieldV3 (query : String) (cols : List String) : String :=
  let q := strLower query
  if containsSub q "indication" && cols.any (fun c => containsSub (strLower c) "indication") then
    (cols.find? (fun c => containsSub (strLower c) "indication")).getD ""
  else if containsSub q "treatment" && cols.any (fun c => containsSub (strLower c) "treatment") then
    (cols.find? (fun c => containsSub (strLower c) "treatment")).getD ""
  else if containsSub q "type" && cols.any (fun c => containsSub (strLower c) "type") then
    (cols.find? (fun c => containsSub (strLower c) "type")).getD ""
  else if !(cols.filter isCategoryColV3).isEmpty then (cols.filter isCategoryColV3).headD ""
  else ""

/-!
## Aggregation engine — `executeBasicSQL`
(src/server/api/routers/data.ts, fourth revision, lines 1314-1391)
-/

/-- Scan for a match of `/LIMIT\s+(\d+)/i` anchored at the head of `cs`:
a case-insensitive "limit", one or more whitespace characters, then the
maximal run of one or more digits. -/
def limitMatchHere (cs : List Char) : Option Nat :=
  if (cs.take 5).map Char.toLower = "limit".toList then
    let after := cs.drop 5
    let (ws, rest) := after.span isWsChar
    if ws.isEmpty then none
    else
      let (ds, _) := rest.span (fun c : Char => c.isDigit)
      if ds.isEmpty then none else some (digitsToNat ds)
  else none

/-- Left-to-right regex scan for `/LIMIT\s+(\d+)/i`. -/
def scanLimit : List Char → Option Nat
  | [] => none
  | c :: rest =>
      match limitMatchHere (c :: rest) with
      | some n => some n
      | none => scanLimit rest

/-- `sql.match(/LIMIT\s+(\d+)/i)` followed by `parseInt` of the captured
digits (lines 1323-1325): the numeric LIMIT discoverable in the SQL
string, if any. -/
def extractLimit (sql : String) : Option Nat :=
  scanLimit sql.toList

/-- Per-group accumulator `{sum, count}` (line 1345).  The source also
accumulates an `items` array, which `executeBasicSQL` never reads; it is
omitted here. -/
structure GroupAcc where
  sum : JSRat
  count : Nat
  deriving DecidableEq, Repr

/-- The grouping key of a row: `String(row[groupByField] || "Unknown")`
(line 1348) — a falsy or missing value groups under "Unknown". -/
def groupKey (g : String) (row : Row) : String :=
  match lookupVal row g with
  | some v => if jsTruthy v then jsToString v else "Unknown"
  | none => "Unknown"

/-- The amount a row adds to its group's running sum (lines 1358-1361):
`if (aggregateField && row[aggregateField]) sum += parseFloat(...) || 0`
— nothing is added when the aggregate field is empty or the value is
falsy; a NaN parse adds zero. -/
def rowContribution (f : String) (row : Row) : JSRat :=
  match lookupVal row f with
  | some v => if f ≠ "" && jsTruthy v then jsNumOrZero (parseFloatValue v) else jrZero
  | none => jrZero

/-- Update the (insertion-ordered) group list with one row's key and
contribution: bump an existing group in place or append a new one
(lines 1347-1362; JS `Map` iterates in insertion order). -/
def updateGroup : List (String × GroupAcc) → String → JSRat → List (String × GroupAcc)
  | [], key, c => [(key, ⟨c, 1⟩)]
  | (k, a) :: rest, key, c =>
      if k = key then (k, ⟨jrAdd a.sum c, a.count + 1⟩) :: rest
      else (k, a) :: updateGroup rest key c

/-- One step of the `dataset.forEach` grouping loop. -/
def stepGroup (g f : String) (groups : List (String × GroupAcc)) (row : Row) :
    List (String × GroupAcc) :=
  updateGroup groups (groupKey g row) (rowContribution f row)

/-- The synthesized aggregate column name used when rendering a group:
`total_<field>` for sum, `avg_<field>` for avg, `count` otherwise
(lines 1370-1376). -/
def aggColName (aggregationType aggregateField : String) : String :=
  if aggregationType = "sum" && aggregateField ≠ "" then "total_" ++ strLower aggregateField
  else if aggregationType = "avg" && aggregateField ≠ "" then "avg_" ++ strLower aggregateField
  else "count"

/-- The rendered aggregate value of a group (lines 1370-1376); the avg
branch guards against a zero count as the source does. -/
def aggColValue (aggregationType aggregateField : String) (a : GroupAcc) : Value :=
  if aggregationType = "sum" && aggregateField ≠ "" then .num a.sum
  else if aggregationType = "avg" && aggregateField ≠ "" then
    .num (if a.count > 0 then jrDiv a.sum ⟨a.count, 1⟩ else jrZero)
  else .num ⟨a.count, 1⟩

/-- Render one group into a result record (lines 1366-1379):
`resultRow[groupByField] = key` then the aggregate column — when the two
names collide the later assignment overwrites, as in JS. -/
def renderRow (aggregationType g f : String) (key : String) (a : GroupAcc) : Row :=
  jsSet (jsSet [] g (.str key)) (aggColName aggregationType f) (aggColValue aggregationType f a)

/-- Sort key `(b[valueKey] || 0)` of a result record (line 1385): result
records hold the group key (a string) and a numeric aggregate column, so
the value column is always a number; a missing entry counts as 0 (for a
number `q`, `q || 0 = q`). -/
def sortVal (valueKey : String) (row : Row) : JSRat :=
  match lookupVal row valueKey with
  | some (.num q) => q
  | _ => jrZero

/-- Insert into a descending-sorted list, after every element with a
strictly larger key and before the first element with a smaller-or-equal
key — the stable placement for an element that precedes the list's
elements in discovery order. -/
def insertDesc (val : Row → JSRat) (x : Row) : List Row → List Row
  | [] => [x]
  | y :: ys => if jrLt (val x) (val y) then y :: insertDesc val x ys else x :: y :: ys

/-- Stable descending sort by a numeric key, modelling
`result.sort((a, b) => (b[v] || 0) - (a[v] || 0))` (line 1385) — JS
`Array.prototype.sort` is stable, so ties keep discovery order. -/
def sortDescBy (val : Row → JSRat) : List Row → List Row
  | [] => []
  | x :: xs => insertDesc val x (sortDescBy val xs)

/-- `return limit ? result.slice(0, limit) : result` (line 1390): a null
**or zero** limit (0 is falsy in JS) returns the full list. -/
def applyLimit (limit : Option Nat) (l : List Row) : List Row :=
  match limit with
  | some n => if n = 0 then l else l.take n
  | none => l

/-- The ungrouped sum `dataset.reduce((acc, row) => acc +
(parseFloat(row[f]) || 0), 0)` (lines 1333, 1337). -/
def ungroupedSum (f : String) (ds : List Row) : JSRat :=
  ds.foldl (fun acc row => jrAdd acc (jsNumOrZero (parseFloatAt row f))) jrZero

/-- The sorting step of `executeBasicSQL` (lines 1381-1387): when the
result is non-empty and its first record has a key other than the
group-by field, sort descending by that key; otherwise leave the
discovery order. -/
def sortResult (gbf : String) (result : List Row) : List Row :=
  match result with
  | [] => result
  | r0 :: _ =>
      match (r0.map Prod.fst).find? (fun k => k ≠ gbf) with
      | some vk => sortDescBy (sortVal vk) result
      | none => result

/-- `executeBasicSQL(dataset, queryAnalysis)` (lines 1314-1391): with no
group-by field, a single aggregate record (count first, then sum, then
avg, then count again as default), returned **without** applying the
LIMIT; with a group-by field, group, render, sort descending by the
first non-group-by column of the first record, then apply the LIMIT. -/
def executeBasicSQL (dataset : List Row) (qa : QueryIntent) : List Row :=
  let limit := extractLimit qa.sql
  if qa.groupByField = "" then
    if qa.aggregationType = "count" then [jsSet [] "count" (.num ⟨dataset.length, 1⟩)]
    else if qa.aggregateField ≠ "" && qa.aggregationType = "sum" then
      [jsSet [] ("total_" ++ strLower qa.aggregateField) (.num (ungroupedSum qa.aggregateField dataset))]
    else if qa.aggregateField ≠ "" && qa.aggregationType = "avg" then
      [jsSet [] ("avg_" ++ strLower qa.aggregateField)
        (.num (if dataset.length > 0 then
                 jrDiv (ungroupedSum qa.aggregateField dataset) ⟨dataset.length, 1⟩
               else jrZero))]
    else [jsSet [] "count" (.num ⟨dataset.length, 1⟩)]
  else
    let groups := dataset.foldl (stepGroup qa.groupByField qa.aggregateField) []
    let result := groups.map (fun p => renderRow qa.aggregationType qa.groupByField qa.aggregateField p.1 p.2)
    applyLimit limit (sortResult qa.groupByField result)

/-!
## Display classifier (fourth revision, lines 1596-1617)
-/

/-- Rule 1 shape test: exactly one record with exactly one field
(line 1599). -/
def isSingleValueResult (result : List Row) : Bool :=
  match result with
  | [r] => r.length = 1
  | _ => false

/-- Rule 2 listing-intent test (lines 1602-1605): the lowercased query
contains "filter" together with "show", "list" or "give me all". -/
def listingIntent (query : String) : Bool :=
  containsSub (strLower query) "filter" &&
    (containsSub (strLower query) "show" || containsSub (strLower query) "list" ||
     containsSub (strLower query) "give me all")

/-- The display classifier (lines 1596-1617), checked in order:
single-value → "number"; listing intent → "table"; group-by field and
aggregation type both set (non-empty, JS truthiness) → "chart"; more
than 20 records → "table"; default "chart". -/
def classifyDisplay (query : String) (qa : QueryIntent) (result : List Row) : String :=
  if isSingleValueResult result then "number"
  else if listingIntent query then "table"
  else if qa.groupByField ≠ "" && qa.aggregationType ≠ "" then "chart"
  else if result.length > 20 then "table"
  else "chart"

/-!
## `processQuery` of the fourth revision (lines 1536-1673)

The OpenAI call (`naturalLanguageToSQL`) is external I/O; its outcome is a
parameter: `Except.error e` models a failed analysis (timeout, parse
failure, missing key — the source then returns the error), `Except.ok qa`
a successful structured response.  The response model keeps the
semantically meaningful fields; the `interpretation` echo of the intent
and the prose `explanations` string (lines 1619-1660), both derived from
the same values, are omitted.
-/

/-- The response shape of `processQuery`. -/
structure QueryResponse where
  success : Bool
  error : Option String
  sql : Option String
  result : Option (List Row)
  displayType : Option String
  deriving DecidableEq, Repr

/-- The dataset store: dataset id → stored rows (the `datasetStore` map). -/
def lookupStore : List (String × List Row) → String → Option (List Row)
  | [], _ => none
  | (k, v) :: rest, id2 => if k = id2 then some v else lookupStore rest id2

/-- The failure response of the fourth-revision guard (lines 1545-1550). -/
def datasetNotFound : QueryResponse :=
  ⟨false, some "Dataset not found or empty. Please upload a dataset first.", none, none, none⟩

/-- `processQuery` body after the dataset guard: a failed analysis is
surfaced with its error and a placeholder SQL (lines 1584-1590); on
success the intent is executed, the display type classified, and the
result truncated to 20 records (lines 1592-1661). -/
def processQueryBody (query : String) (ds : List Row) (llm : Except String QueryIntent) :
    QueryResponse :=
  match llm with
  | .error e => ⟨false, some e, some "-- OpenAI query analysis failed", none, none⟩
  | .ok qa =>
      let result := executeBasicSQL ds qa
      ⟨true, none, some qa.sql, some (result.take 20), some (classifyDisplay query qa result)⟩

/-- `processQuery` of the fourth revision (lines 1536-1673): look the
dataset up in the store; a missing or empty dataset is fatal to the
query (lines 1543-1550). -/
def processQueryV4 (store : List (String × List Row)) (query datasetId : String)
    (llm : Except String QueryIntent) : QueryResponse :=
  match lookupStore store datasetId with
  | none => datasetNotFound
  | some ds => if ds.length = 0 then datasetNotFound else processQueryBody query ds llm

/-!
## Helper lemmas
-/

lemma lookup_jsSet_self (r : Row) (k : String) (v : Value) :
    lookupVal (jsSet r k v) k = some v := by
  induction r with
  | nil => simp [jsSet, lookupVal]
  | cons hd tl ih =>
      by_cases h : hd.1 = k
      · simp [jsSet, lookupVal, h]
      · simp [jsSet, lookupVal, h, ih]

lemma mem_insertDesc (val : Row → JSRat) (a x : Row) (l : List Row) :
    x ∈ insertDesc val a l ↔ x = a ∨ x ∈ l := by
  induction l with
  | nil => simp [insertDesc]
  | cons y ys ih =>
      by_cases h : jrLt (val a) (val y) = true
      · simp only [insertDesc, if_pos h, List.mem_cons, ih]
        try tauto
      · simp only [insertDesc, if_neg h, List.mem_cons]
        try tauto

lemma mem_sortDescBy (val : Row → JSRat) (x : Row) (l : List Row) :
    x ∈ sortDescBy val l ↔ x ∈ l := by
  induction l with
  | nil => simp [sortDescBy]
  | cons y ys ih => simp [sortDescBy, mem_insertDesc, ih]

lemma mem_applyLimit (lim : Option Nat) (x : Row) (l : List Row)
    (h : x ∈ applyLimit lim l) : x ∈ l := by
  rcases lim with _ | n
  · exact h
  · by_cases h0 : n = 0
    · simpa [applyLimit, h0] using h
    · exact List.take_subset n l (by simpa [applyLimit, h0] using h)

lemma applyLimit_singleton (lim : Option Nat) (x : Row) :
    applyLimit lim [x] = [x] := by
  rcases lim with _ | n
  · rfl
  · rcases n with _ | m <;> simp [applyLimit]

lemma rowContribution_nan (f : String) (row : Row)
    (h : parseFloatAt row f = JSNum.nan) : rowContribution f row = jrZero := by
  unfold parseFloatAt at h
  unfold rowContribution
  rcases hl : lookupVal row f with _ | v
  · simp [hl]
  · simp only [hl] at h ⊢
    rw [h]
    split <;> simp [jsNumOrZero]

/-!
## Claim theorems
-/

/-- Claim C1: for the rows `[{k:"A",v:10},{k:"A",v:20},{k:"B",v:5}]` and
the intent `{groupByField:"k", aggregateField:"v", aggregationType:"sum"}`,
the aggregation engine returns exactly
`[{k:"A", total_v:30},{k:"B", total_v:5}]` — one record per distinct
group, the sum under `total_v`, sorted descending by that value. -/
theorem C1_aggregation_correctness :
    executeBasicSQL
      [[("k", Value.str "A"), ("v", Value.num ⟨10, 1⟩)],
       [("k", Value.str "A"), ("v", Value.num ⟨20, 1⟩)],
       [("k", Value.str "B"), ("v", Value.num ⟨5, 1⟩)]]
      ⟨"", "sum", "k", "v", "bar"⟩ =
      [[("k", Value.str "A"), ("total_v", Value.num ⟨30, 1⟩)],
       [("k", Value.str "B"), ("total_v", Value.num ⟨5, 1⟩)]] := by
  decide

/-- Claim C4: a result consisting of exactly one record with exactly one
field classifies as "number" for every query string and every intent —
the single-value rule is checked first and wins over every other rule. -/
theorem C4_number_precedence (query : String) (qa : QueryIntent) (k : String) (v : Value) :
    classifyDisplay query qa [[(k, v)]] = "number" := by
  simp [classifyDisplay, isSingleValueResult]

/-- Claim C2, counterexample: the claim says that when no query keyword
matches, Tier 2 resolves to count over all rows **with no grouping**.
For the keyword-free query "hello" over a schema with a column named
"type", the resolver still groups: the category-field fallback picks
"type", so the resolved intent is a grouped count, not an ungrouped one. -/
theorem C2_counterexample :
    (resolveTier2 "hello" ["type"]).aggregationType = "count" ∧
    (resolveTier2 "hello" ["type"]).groupByField = "type" ∧
    "type" ≠ "" := by
  refine ⟨by decide, by decide, by decide⟩

/-- Claim C2, amended: for every query and schema the Tier-2 resolver
totally produces a complete intent whose aggregation type is one of
sum/avg/count and whose chart type is one of bar/line/pie; and when no
query keyword matches **and no column name contains a category-like
substring**, it resolves to a count over all rows with no grouping. -/
theorem C2_amended_totality_and_default (query : String) (cols : List String) :
    ((resolveTier2 query cols).aggregationType = "sum" ∨
     (resolveTier2 query cols).aggregationType = "avg" ∨
     (resolveTier2 query cols).aggregationType = "count") ∧
    ((resolveTier2 query cols).chartType = "bar" ∨
     (resolveTier2 query cols).chartType = "line" ∨
     (resolveTier2 query cols).chartType = "pie") ∧
    (containsSub (strLower query) "indication" = false →
     containsSub (strLower query) "treatment" = false →
     containsSub (strLower query) "brand" = false →
     containsSub (strLower query) "cost" = false →
     containsSub (strLower query) "sum" = false →
     containsSub (strLower query) "total" = false →
     containsSub (strLower query) "average" = false →
     containsSub (strLower query) "avg" = false →
     (∀ c ∈ cols, isCategoryCol c = false) →
     (resolveTier2 query cols).aggregationType = "count" ∧
     (resolveTier2 query cols).groupByField = "" ∧
     (resolveTier2 query cols).aggregateField = "") := by
  refine ⟨?_, ?_, ?_⟩
  · simp only [resolveTier2, tier2Agg]
    split_ifs <;> simp
  · simp only [resolveTier2, tier2ChartType]
    split_ifs <;> simp
  · intro h1 h2 h3 h4 h5 h6 h7 h8 h9
    have hcat : cols.filter isCategoryCol = [] := by
      rw [List.filter_eq_nil_iff]
      intro a ha
      simp [h9 a ha]
    refine ⟨?_, ?_, ?_⟩
    · simp only [resolveTier2, tier2Agg, h4, h5, h6, h7, h8]
      split_ifs <;> simp_all
    · simp only [resolveTier2, tier2GroupBy, h1, h2, h3, hcat]
      simp
    · simp only [resolveTier2, tier2Agg, h4, h5, h6, h7, h8]
      split_ifs <;> simp_all

/-- Claim C2, witness: the amended default at a concrete keyword-free
query and category-free schema. -/
theorem C2_witness :
    (resolveTier2 "zzz" ["region"]).aggregationType = "count" ∧
    (resolveTier2 "zzz" ["region"]).groupByField = "" ∧
    (resolveTier2 "zzz" ["region"]).aggregateField = "" :=
  (C2_amended_totality_and_default "zzz" ["region"]).2.2
    (by decide) (by decide) (by decide) (by decide) (by decide) (by decide)
    (by decide) (by decide) (by decide)

/-- Claim C3, counterexample: the claim quantifies over every query
string, but the listing-intent rule is checked before the grouped-always-
chart rule: for the query "filter show" a grouped intent with a 50-row
result classifies as "table", not "chart". -/
theorem C3_counterexample :
    classifyDisplay "filter show" ⟨"", "sum", "g", "c", "bar"⟩
      (List.replicate 50 [("g", Value.str "x"), ("c", Value.num ⟨1, 1⟩)]) = "table" ∧
    "table" ≠ "chart" := by
  refine ⟨by decide, by decide⟩

/-- Claim C3, amended: when the result is not a single one-field record
and the query carries no explicit listing intent ("filter" with
"show"/"list"/"give me all"), an intent with both a group-by field and an
aggregation type set classifies as "chart" regardless of the number of
result records (including 50). -/
theorem C3_amended_grouped_chart (query : String) (qa : QueryIntent) (result : List Row)
    (h1 : isSingleValueResult result = false) (h2 : listingIntent query = false)
    (h3 : qa.groupByField ≠ "") (h4 : qa.aggregationType ≠ "") :
    classifyDisplay query qa result = "chart" := by
  simp [classifyDisplay, h1, h2, h3, h4]

/-- Claim C3, witness: a grouped intent over a 50-row result with a
listing-free query classifies as "chart". -/
theorem C3_witness :
    classifyDisplay "top products" ⟨"", "sum", "g", "c", "bar"⟩
      (List.replicate 50 [("g", Value.str "x"), ("c", Value.num ⟨1, 1⟩)]) = "chart" :=
  C3_amended_grouped_chart _ _ _ (by decide) (by decide) (by decide) (by decide)

/-- The SQL string only enters `executeBasicSQL` through the discovered
LIMIT: the output equals the output for an empty SQL string with
`applyLimit` applied (the ungrouped single-record branches are unchanged
by any limit, as in the source, where they return early). -/
lemma executeBasicSQL_sql_decomp (ds : List Row) (qa : QueryIntent) :
    executeBasicSQL ds qa =
      applyLimit (extractLimit qa.sql)
        (executeBasicSQL ds ⟨"", qa.aggregationType, qa.groupByField, qa.aggregateField, qa.chartType⟩) := by
  have hnone : extractLimit "" = none := rfl
  simp only [executeBasicSQL, hnone]
  by_cases hg : qa.groupByField = ""
  · simp only [hg, if_pos rfl]
    split_ifs <;> rw [applyLimit_singleton]
  · simp only [if_neg hg]
    rfl

/-- Claim C5, counterexample: the claim says a discoverable `LIMIT n`
truncates to the first `n` sorted rows **for every n**.  For `LIMIT 0`
the source's `limit ? result.slice(0, limit) : result` treats the limit
as absent (0 is falsy), and the full two-row result is returned instead
of the empty first-0 prefix. -/
theorem C5_counterexample :
    extractLimit "SELECT k, COUNT(*) as count FROM dataset GROUP BY k LIMIT 0" = some 0 ∧
    executeBasicSQL
      [[("k", Value.str "A")], [("k", Value.str "B")]]
      ⟨"SELECT k, COUNT(*) as count FROM dataset GROUP BY k LIMIT 0", "count", "k", "", "bar"⟩ =
      [[("k", Value.str "A"), ("count", Value.num ⟨1, 1⟩)],
       [("k", Value.str "B"), ("count", Value.num ⟨1, 1⟩)]] ∧
    ([[("k", Value.str "A"), ("count", Value.num ⟨1, 1⟩)],
      [("k", Value.str "B"), ("count", Value.num ⟨1, 1⟩)]] : List Row).length ≠ 0 := by
  refine ⟨by decide, by decide, by decide⟩

/-- Claim C5, amended: when a numeric `LIMIT n` with `n ≥ 1` is
discoverable in `intent.sql`, the aggregation engine's output is the
first `n` rows of the (sorted) unlimited output (`LIMIT 0` is treated as
no limit); and the final output of `processQuery` is always capped at 20
rows by the display slice, in particular when no LIMIT is discoverable. -/
theorem C5_amended_limit_truncation (ds : List Row) (qa : QueryIntent) (n : Nat)
    (store : List (String × List Row)) (query id2 : String) :
    (extractLimit qa.sql = some n → 1 ≤ n →
      executeBasicSQL ds qa =
        (executeBasicSQL ds ⟨"", qa.aggregationType, qa.groupByField, qa.aggregateField, qa.chartType⟩).take n) ∧
    (∀ r, (processQueryV4 store query id2 (Except.ok qa)).result = some r → r.length ≤ 20) := by
  constructor
  · intro hl hn
    rw [executeBasicSQL_sql_decomp, hl]
    simp only [applyLimit]
    rw [if_neg (show ¬n = 0 by omega)]
  · intro r hr
    unfold processQueryV4 at hr
    rcases hs : lookupStore store id2 with _ | ds2
    · rw [hs] at hr
      simp [datasetNotFound] at hr
    · rw [hs] at hr
      dsimp only at hr
      by_cases h0 : ds2.length = 0
      · rw [if_pos h0] at hr
        simp [datasetNotFound] at hr
      · rw [if_neg h0] at hr
        unfold processQueryBody at hr
        dsimp only at hr
        simp only [Option.some.injEq] at hr
        rw [← hr]
        exact List.length_take_le 20 _

/-- Claim C5, witness: `LIMIT 1` truncates a two-group aggregation to its
top row, and a concrete `processQuery` response is within the 20-row cap. -/
theorem C5_witness :
    executeBasicSQL
      [[("k", Value.str "A")], [("k", Value.str "B")]]
      ⟨"SELECT k FROM dataset LIMIT 1", "count", "k", "", "bar"⟩ =
      (executeBasicSQL [[("k", Value.str "A")], [("k", Value.str "B")]]
        ⟨"", "count", "k", "", "bar"⟩).take 1 ∧
    ([[("k", Value.str "A"), ("count", Value.num ⟨1, 1⟩)],
      [("k", Value.str "B"), ("count", Value.num ⟨1, 1⟩)]] : List Row).length ≤ 20 := by
  constructor
  · exact (C5_amended_limit_truncation
      [[("k", Value.str "A")], [("k", Value.str "B")]]
      ⟨"SELECT k FROM dataset LIMIT 1", "count", "k", "", "bar"⟩ 1 [] "q" "d").1
      (by decide) (by decide)
  · exact (C5_amended_limit_truncation
      [[("k", Value.str "A")], [("k", Value.str "B")]]
      ⟨"", "count", "k", "", "bar"⟩ 1
      [("d", [[("k", Value.str "A")], [("k", Value.str "B")]])] "q" "d").2
      [[("k", Value.str "A"), ("count", Value.num ⟨1, 1⟩)],
       [("k", Value.str "B"), ("count", Value.num ⟨1, 1⟩)]]
      (by decide)

/-- Claim C6, counterexample: two of the claim's clauses fail on the
code.  First, the claim classifies "everything else" (anything that is
not a numeric literal, a date-like string, or a numeric string) as
"string", but `inferSchema` classifies a boolean literal as "boolean":
for the row `{b: false}` the descriptor's type is "boolean", not
"string".  Second, the claim says the empty sequence is returned *only*
when the input is empty, but the non-empty input `[{}]` (one record with
no keys) also returns the empty sequence. -/
theorem C6_counterexample :
    inferSchema isoDateOk [[("b", Value.bool false)]] = [⟨"b", "boolean", "false"⟩] ∧
    "boolean" ≠ "string" ∧
    inferSchema isoDateOk [[]] = [] ∧
    ([[]] : List Row) ≠ [] := by
  refine ⟨by decide, by decide, by decide, by decide⟩

/-- Claim C6, amended: for every `Date.parse` behaviour and every
non-empty row set, `inferSchema` returns exactly one descriptor per key
of the first record, each with a type among
string/number/date/boolean, and never throws (it is total).  It returns
the empty sequence exactly when the input is empty **or the first
record has no keys** (not only on empty input).  A numeric literal is
"number"; a **boolean literal is "boolean"** (not "string"); a string
is "date" exactly when `Date.parse` succeeds on it and it contains "-"
(not merely when it has a `YYYY-MM-DD` prefix), otherwise "number"
exactly when the whole string coerces to a number via `Number(...)`,
otherwise "string". -/
theorem C6_amended_inferSchema (dp : String → Bool) (firstRow : Row) (rest : List Row) :
    (inferSchema dp (firstRow :: rest)).map (fun d => d.name) = firstRow.map Prod.fst ∧
    (∀ d ∈ inferSchema dp (firstRow :: rest),
      d.type = "string" ∨ d.type = "number" ∨ d.type = "date" ∨ d.type = "boolean") ∧
    inferSchema dp [] = [] ∧
    (inferSchema dp (firstRow :: rest) = [] ↔ firstRow = []) ∧
    (∀ k q, inferSchema dp [[(k, Value.num q)]] = [⟨k, "number", jsToString (Value.num q)⟩]) ∧
    (∀ k b, inferSchema dp [[(k, Value.bool b)]] = [⟨k, "boolean", jsToString (Value.bool b)⟩]) ∧
    (∀ k s, inferSchema dp [[(k, Value.str s)]] =
      [⟨k, if dp s && containsSub s "-" then "date"
           else if !jsNumberIsNaN s then "number" else "string", s⟩]) := by
  refine ⟨?_, ?_, rfl, ?_, ?_, ?_, ?_⟩
  · simp [inferSchema]
  · intro d hd
    simp only [inferSchema, List.mem_map] at hd
    obtain ⟨kv, _, hkv⟩ := hd
    rw [← hkv]
    rcases kv with ⟨k, v⟩
    rcases v with q | s | b | _
    · simp [classifyValue]
    · simp only [classifyValue]
      split_ifs <;> simp
    · simp [classifyValue]
    · simp [classifyValue]
  · simp [inferSchema]
  · intro k q
    rfl
  · intro k b
    rfl
  · intro k s
    rfl

/-- Claim C6, witness: the amended theorem at a concrete one-column row
with a numeric value. -/
theorem C6_witness :
    inferSchema isoDateOk [[("n", Value.num ⟨7, 1⟩)]] = [⟨"n", "number", "7"⟩] := by
  have h := (C6_amended_inferSchema isoDateOk [("n", Value.num ⟨7, 1⟩)] []).2.2.2.2.1 "n" ⟨7, 1⟩
  rw [h]
  decide

/-- Claim C7, counterexample: the claim says the query is phrase-matched
against "type"/"category"/"brand"/"substance"-like columns as the third
priority tier.  The third-revision selector only phrase-matches "type":
for the query "revenue by brand" over columns
`["product_type", "brand"]` it ignores the "brand" phrase match and falls
back to the first category-like column, "product_type", not "brand". -/
theorem C7_counterexample :
    selectGroupByFieldV3 "revenue by brand" ["product_type", "brand"] = "product_type" ∧
    "product_type" ≠ "brand" := by
  refine ⟨by decide, by decide⟩

/-- Claim C7, amended: the group-by column is selected by phrase-matching
the query against columns containing "indication", then "treatment",
then **"type" only** (each tier applying exactly when the query contains
the keyword and such a column exists, earlier tiers taking priority);
when none of these three phrase matches applies, the first column whose
name contains any of the category-ish substrings
(indication/treatment/type/category/brand/substance) is chosen, or the
empty string when there is none.  The four conjuncts cover the three
priority tiers and the fallback. -/
theorem C7_amended_groupby_selection (query : String) (cols : List String) :
    ((containsSub (strLower query) "indication" &&
        cols.any (fun c => containsSub (strLower c) "indication")) = true →
      selectGroupByFieldV3 query cols =
        (cols.find? (fun c => containsSub (strLower c) "indication")).getD "") ∧
    ((containsSub (strLower query) "indication" &&
        cols.any (fun c => containsSub (strLower c) "indication")) = false →
     (containsSub (strLower query) "treatment" &&
        cols.any (fun c => containsSub (strLower c) "treatment")) = true →
      selectGroupByFieldV3 query cols =
        (cols.find? (fun c => containsSub (strLower c) "treatment")).getD "") ∧
    ((containsSub (strLower query) "indication" &&
        cols.any (fun c => containsSub (strLower c) "indication")) = false →
     (containsSub (strLower query) "treatment" &&
        cols.any (fun c => containsSub (strLower c) "treatment")) = false →
     (containsSub (strLower query) "type" &&
        cols.any (fun c => containsSub (strLower c) "type")) = true →
      selectGroupByFieldV3 query cols =
        (cols.find? (fun c => containsSub (strLower c) "type")).getD "") ∧
    ((containsSub (strLower query) "indication" &&
        cols.any (fun c => containsSub (strLower c) "indication")) = false →
     (containsSub (strLower query) "treatment" &&
        cols.any (fun c => containsSub (strLower c) "treatment")) = false →
     (containsSub (strLower query) "type" &&
        cols.any (fun c => containsSub (strLower c) "type")) = false →
      selectGroupByFieldV3 query cols = (cols.filter isCategoryColV3).headD "") := by
  refine ⟨?_, ?_, ?_, ?_⟩
  · intro h1
    simp [selectGroupByFieldV3, h1]
  · intro h1 h2
    simp [selectGroupByFieldV3, h1, h2]
  · intro h1 h2 h3
    simp [selectGroupByFieldV3, h1, h2, h3]
  · intro h1 h2 h3
    simp only [selectGroupByFieldV3, h1, h2, h3, Bool.false_eq_true, if_false]
    rcases hf : cols.filter isCategoryColV3 with _ | ⟨a, l⟩ <;> simp [hf]

/-- Claim C7, witness: one concrete instance per tier — an "indication"
phrase match, a "type" phrase match taking priority over an earlier
brand column, and the category fallback for a query with no matching
phrase. -/
theorem C7_witness :
    selectGroupByFieldV3 "count by indication" ["id", "indication"] = "indication" ∧
    selectGroupByFieldV3 "by type" ["brand", "product_type"] = "product_type" ∧
    selectGroupByFieldV3 "sales by brand" ["product_type", "brand"] = "product_type" := by
  refine ⟨?_, ?_, ?_⟩
  · have h := (C7_amended_groupby_selection "count by indication" ["id", "indication"]).1
      (by decide)
    rw [h]
    decide
  · have h := (C7_amended_groupby_selection "by type" ["brand", "product_type"]).2.2.1
      (by decide) (by decide) (by decide)
    rw [h]
    decide
  · have h := (C7_amended_groupby_selection "sales by brand" ["product_type", "brand"]).2.2.2
      (by decide) (by decide) (by decide)
    rw [h]
    decide

/-- Claim C8, counterexample: the claim fixes the error message as
exactly "Dataset not found or empty", but the OpenAI-only revision of
`processQuery` (the one the other pipeline claims describe) returns
"Dataset not found or empty. Please upload a dataset first." for a
missing dataset id. -/
theorem C8_counterexample :
    (processQueryV4 [("other", [[("a", Value.num ⟨1, 1⟩)]])] "q" "missing"
      (Except.error "x")).error =
      some "Dataset not found or empty. Please upload a dataset first." ∧
    some "Dataset not found or empty. Please upload a dataset first." ≠
      some "Dataset not found or empty" := by
  refine ⟨by decide, by decide⟩

/-- Claim C8, amended: a query whose dataset id is absent from the store
(or maps to an empty row set) fails with `success: false` and an error
message that starts with "Dataset not found or empty" (the earlier
two-tier revisions use exactly that string; the OpenAI-only revision
appends ". Please upload a dataset first."); and `processQuery` never
substitutes a different dataset — its response depends on the store only
through the entry at the requested id. -/
theorem C8_amended_dataset_not_found (store store2 : List (String × List Row))
    (query datasetId : String) (llm : Except String QueryIntent) :
    (lookupStore store datasetId = none ∨ lookupStore store datasetId = some [] →
      (processQueryV4 store query datasetId llm).success = false ∧
      ∃ msg, (processQueryV4 store query datasetId llm).error = some msg ∧
        strStartsWith "Dataset not found or empty" msg = true) ∧
    (lookupStore store2 datasetId = lookupStore store datasetId →
      processQueryV4 store2 query datasetId llm = processQueryV4 store query datasetId llm) := by
  constructor
  · intro h
    have hnf : (datasetNotFound.success = false) ∧
        ∃ msg, datasetNotFound.error = some msg ∧
          strStartsWith "Dataset not found or empty" msg = true := by
      refine ⟨rfl, "Dataset not found or empty. Please upload a dataset first.", rfl, by decide⟩
    rcases h with h | h <;>
      · unfold processQueryV4
        rw [h]
        simpa using hnf
  · intro h
    unfold processQueryV4
    rw [h]

/-- Claim C8, witness: a concrete store without the requested id yields
the failure response with the "Dataset not found or empty" prefix. -/
theorem C8_witness :
    (processQueryV4 [] "q" "absent" (Except.error "e")).success = false ∧
    ∃ msg, (processQueryV4 [] "q" "absent" (Except.error "e")).error = some msg ∧
      strStartsWith "Dataset not found or empty" msg = true :=
  (C8_amended_dataset_not_found [] [] "q" "absent" (Except.error "e")).1 (Or.inl rfl)

lemma mem_sortResult (gbf : String) (l : List Row) (x : Row)
    (h : x ∈ sortResult gbf l) : x ∈ l := by
  rcases l with _ | ⟨r0, rs⟩
  · simp [sortResult] at h
  · simp only [sortResult] at h
    rcases hf : (r0.map Prod.fst).find? (fun k => k ≠ gbf) with _ | vk
    · rw [hf] at h
      exact h
    · rw [hf] at h
      exact (mem_sortDescBy _ _ _).1 h

lemma jrAdd_zero_zero : jrAdd jrZero jrZero = jrZero := by
  simp [jrAdd, jrZero]

lemma jrAdd_zero_right (a : JSRat) : jrAdd a jrZero = a := by
  simp [jrAdd, jrZero]

lemma updateGroup_sum_zero (gs : List (String × GroupAcc)) (key : String) (c : JSRat)
    (hgs : ∀ p ∈ gs, p.2.sum = jrZero) (hc : c = jrZero) :
    ∀ p ∈ updateGroup gs key c, p.2.sum = jrZero := by
  induction gs with
  | nil =>
      intro p hp
      simp only [updateGroup, List.mem_singleton] at hp
      rw [hp, hc]
  | cons hd tl ih =>
      obtain ⟨k, a⟩ := hd
      intro p hp
      unfold updateGroup at hp
      by_cases h : k = key
      · rw [if_pos h] at hp
        rcases List.mem_cons.1 hp with hp | hp
        · rw [hp]
          have ha : a.sum = jrZero := hgs (k, a) (by simp)
          simp [ha, hc, jrAdd_zero_zero]
        · exact hgs p (by simp [hp])
      · rw [if_neg h] at hp
        rcases List.mem_cons.1 hp with hp | hp
        · rw [hp]
          exact hgs (k, a) (by simp)
        · exact ih (fun p' hp' => hgs p' (by simp [hp'])) p hp

lemma foldl_stepGroup_sum_zero (g f : String) (rows : List Row)
    (init : List (String × GroupAcc))
    (hrows : ∀ r ∈ rows, rowContribution f r = jrZero)
    (hinit : ∀ p ∈ init, p.2.sum = jrZero) :
    ∀ p ∈ rows.foldl (stepGroup g f) init, p.2.sum = jrZero := by
  induction rows generalizing init with
  | nil => simpa using hinit
  | cons r rs ih =>
      intro p hp
      simp only [List.foldl_cons] at hp
      exact ih (stepGroup g f init r)
        (fun r' hr' => hrows r' (List.mem_cons_of_mem r hr'))
        (updateGroup_sum_zero init (groupKey g r) (rowContribution f r) hinit
          (hrows r (List.mem_cons_self r rs))) p hp

lemma ungroupedSum_zero (f : String) (ds : List Row)
    (hall : ∀ r ∈ ds, parseFloatAt r f = JSNum.nan) : ungroupedSum f ds = jrZero := by
  unfold ungroupedSum
  have haux : ∀ (rows : List Row) (acc : JSRat),
      (∀ r ∈ rows, parseFloatAt r f = JSNum.nan) →
      rows.foldl (fun acc row => jrAdd acc (jsNumOrZero (parseFloatAt row f))) acc = acc := by
    intro rows
    induction rows with
    | nil => intro acc _; rfl
    | cons r rs ih =>
        intro acc hall2
        simp only [List.foldl_cons]
        rw [hall2 r (by simp)]
        show rs.foldl _ (jrAdd acc jrZero) = acc
        rw [jrAdd_zero_right]
        exact ih acc (fun r' hr' => hall2 r' (by simp [hr']))
  exact haux ds jrZero hall

lemma lookup_pair_first (k1 k2 : String) (v1 v2 : Value) :
    lookupVal [(k1, v1), (k2, v2)] k1 = some v1 := by
  simp [lookupVal]

lemma lookup_pair_second (k1 k2 : String) (v1 v2 : Value) (h : ¬ k1 = k2) :
    lookupVal [(k1, v1), (k2, v2)] k2 = some v2 := by
  simp [lookupVal, h]

lemma updateGroup_key_sum_zero (gs : List (String × GroupAcc)) (key0 k : String) (c : JSRat)
    (hgs : ∀ p ∈ gs, p.1 = key0 → p.2.sum = jrZero)
    (hc : k = key0 → c = jrZero) :
    ∀ p ∈ updateGroup gs k c, p.1 = key0 → p.2.sum = jrZero := by
  induction gs with
  | nil =>
      intro p hp hkey
      simp only [updateGroup, List.mem_singleton] at hp
      rw [hp] at hkey ⊢
      exact hc hkey
  | cons hd tl ih =>
      obtain ⟨k2, a⟩ := hd
      intro p hp hkey
      unfold updateGroup at hp
      by_cases h : k2 = k
      · rw [if_pos h] at hp
        rcases List.mem_cons.1 hp with hp | hp
        · rw [hp] at hkey ⊢
          have ha : a.sum = jrZero := hgs (k2, a) (List.mem_cons_self _ _) hkey
          have hc2 : c = jrZero := hc (h.symm.trans hkey)
          simp [ha, hc2, jrAdd_zero_zero]
        · exact hgs p (List.mem_cons_of_mem _ hp) hkey
      · rw [if_neg h] at hp
        rcases List.mem_cons.1 hp with hp | hp
        · rw [hp] at hkey ⊢
          exact hgs (k2, a) (List.mem_cons_self _ _) hkey
        · exact ih (fun p2 hp2 => hgs p2 (List.mem_cons_of_mem _ hp2)) p hp hkey

lemma foldl_stepGroup_key_sum_zero (g f : String) (rows : List Row)
    (init : List (String × GroupAcc)) (key0 : String)
    (hrows : ∀ r ∈ rows, groupKey g r = key0 → rowContribution f r = jrZero)
    (hinit : ∀ p ∈ init, p.1 = key0 → p.2.sum = jrZero) :
    ∀ p ∈ rows.foldl (stepGroup g f) init, p.1 = key0 → p.2.sum = jrZero := by
  induction rows generalizing init with
  | nil => simpa using hinit
  | cons r rs ih =>
      intro p hp hkey
      simp only [List.foldl_cons] at hp
      exact ih (stepGroup g f init r)
        (fun r2 hr2 => hrows r2 (List.mem_cons_of_mem r hr2))
        (updateGroup_key_sum_zero init key0 (groupKey g r) (rowContribution f r) hinit
          (fun hk => hrows r (List.mem_cons_self r rs) hk)) p hp hkey

/-- Claim C9: a row whose aggregate-field value is missing or does not
parse as a number (`parseFloat` gives NaN) contributes zero to its
group's running sum; a **group** whose aggregate column has no numeric
value in any of its rows — also inside a mixed dataset whose other
groups are numeric — renders its aggregate as zero (`total_<f>` is the
number 0 for sum; `avg_<f>` represents 0, i.e. has numerator 0, for
avg); and a sum over a dataset with no numeric values at the aggregate
column renders every `total_<f>` as 0 (this covers the implicit "All"
group of an ungrouped intent).  The aggregation is a total function —
it never throws on such values.  (The group's output record is
identified by its group-key entry, so the grouped conjunct assumes the
group-by field does not collide with the synthesized aggregate name.) -/
theorem C9_nonnumeric_zero_contribution (f key : String) (row : Row) (ds : List Row)
    (qa : QueryIntent) :
    (parseFloatAt row f = JSNum.nan → rowContribution f row = jrZero) ∧
    (qa.aggregateField = f → f ≠ "" → qa.groupByField ≠ "" →
      qa.groupByField ≠ aggColName qa.aggregationType f →
      (∀ r ∈ ds, groupKey qa.groupByField r = key → parseFloatAt r f = JSNum.nan) →
      ∀ out ∈ executeBasicSQL ds qa,
        lookupVal out qa.groupByField = some (Value.str key) →
        (qa.aggregationType = "sum" →
          lookupVal out ("total_" ++ strLower f) = some (Value.num jrZero)) ∧
        (qa.aggregationType = "avg" →
          ∃ d, lookupVal out ("avg_" ++ strLower f) = some (Value.num ⟨0, d⟩))) ∧
    (qa.aggregationType = "sum" → qa.aggregateField = f → f ≠ "" →
      (∀ r ∈ ds, parseFloatAt r f = JSNum.nan) →
      ∀ out ∈ executeBasicSQL ds qa,
        lookupVal out ("total_" ++ strLower f) = some (Value.num jrZero)) := by
  refine ⟨rowContribution_nan f row, ?_, ?_⟩
  · intro hf hne hg hnc hkeyrows out hout hlook
    unfold executeBasicSQL at hout
    rw [if_neg hg] at hout
    have hmem := mem_sortResult _ _ _ (mem_applyLimit _ _ _ hout)
    simp only [List.mem_map] at hmem
    obtain ⟨p, hp, hrender⟩ := hmem
    have hgn : ¬ (qa.groupByField = aggColName qa.aggregationType qa.aggregateField) := by
      rw [hf]
      exact hnc
    have hform : renderRow qa.aggregationType qa.groupByField qa.aggregateField p.1 p.2 =
        [(qa.groupByField, Value.str p.1),
         (aggColName qa.aggregationType qa.aggregateField,
          aggColValue qa.aggregationType qa.aggregateField p.2)] := by
      simp only [renderRow, jsSet]
      rw [if_neg hgn]
    rw [← hrender, hform] at hlook ⊢
    rw [lookup_pair_first] at hlook
    simp only [Option.some.injEq, Value.str.injEq] at hlook
    have hsum0 : p.2.sum = jrZero := by
      refine foldl_stepGroup_key_sum_zero qa.groupByField qa.aggregateField ds [] key ?_
        (by simp) p hp hlook
      intro r hr hk
      rw [hf]
      exact rowContribution_nan f r (hkeyrows r hr hk)
    constructor
    · intro hsum
      have hn : aggColName qa.aggregationType qa.aggregateField = "total_" ++ strLower f := by
        unfold aggColName
        rw [if_pos (by rw [hsum, hf]; simp [hne])]
        rw [hf]
      have hv : aggColValue qa.aggregationType qa.aggregateField p.2 = Value.num jrZero := by
        unfold aggColValue
        rw [if_pos (by rw [hsum, hf]; simp [hne])]
        rw [hsum0]
      rw [hn, hv]
      exact lookup_pair_second _ _ _ _ (hn ▸ hgn)
    · intro havg
      have hn : aggColName qa.aggregationType qa.aggregateField = "avg_" ++ strLower f := by
        unfold aggColName
        rw [if_neg (by rw [havg]; simp)]
        rw [if_pos (by rw [havg, hf]; simp [hne])]
        rw [hf]
      have hv : ∃ d, aggColValue qa.aggregationType qa.aggregateField p.2 =
          Value.num ⟨0, d⟩ := by
        unfold aggColValue
        rw [if_neg (by rw [havg]; simp)]
        rw [if_pos (by rw [havg, hf]; simp [hne])]
        rw [hsum0]
        by_cases hcnt : p.2.count > 0
        · refine ⟨p.2.count, ?_⟩
          rw [if_pos hcnt]
          unfold jrDiv
          rw [if_neg (by dsimp only; omega)]
          simp [jrZero]
        · refine ⟨1, ?_⟩
          rw [if_neg hcnt]
          rfl
      obtain ⟨d, hv⟩ := hv
      refine ⟨d, ?_⟩
      rw [hn, hv]
      exact lookup_pair_second _ _ _ _ (hn ▸ hgn)
  · intro hsum hf hne hall out hout
    unfold executeBasicSQL at hout
    by_cases hg : qa.groupByField = ""
    · rw [if_pos hg] at hout
      rw [if_neg (by rw [hsum]; decide)] at hout
      rw [if_pos (by rw [hsum, hf]; simp [hne])] at hout
      simp only [List.mem_singleton] at hout
      rw [hout, hf, ungroupedSum_zero f ds hall]
      exact lookup_jsSet_self _ _ _
    · rw [if_neg hg] at hout
      have hmem := mem_sortResult _ _ _ (mem_applyLimit _ _ _ hout)
      simp only [List.mem_map] at hmem
      obtain ⟨p, hp, hrender⟩ := hmem
      have hzero : p.2.sum = jrZero := by
        refine foldl_stepGroup_sum_zero qa.groupByField qa.aggregateField ds [] ?_ (by simp) p hp
        intro r hr
        rw [hf]
        exact rowContribution_nan f r (hall r hr)
      rw [← hrender]
      unfold renderRow
      have hname : aggColName qa.aggregationType qa.aggregateField = "total_" ++ strLower f := by
        unfold aggColName
        rw [if_pos (by rw [hsum, hf]; simp [hne])]
        rw [hf]
      have hval : aggColValue qa.aggregationType qa.aggregateField p.2 = Value.num jrZero := by
        unfold aggColValue
        rw [if_pos (by rw [hsum, hf]; simp [hne])]
        rw [hzero]
      rw [hname, hval]
      exact lookup_jsSet_self _ _ _

/-- Claim C9, witness: in a mixed dataset whose group "A" holds only the
non-numeric string "abc" at "v" while group "B" holds the number 10, the
output record of group "A" carries `total_v = 0`; and the non-numeric
row contributes zero. -/
theorem C9_witness :
    rowContribution "v" [("v", Value.str "abc")] = jrZero ∧
    lookupVal [("g", Value.str "A"), ("total_v", Value.num jrZero)]
      ("total_" ++ strLower "v") = some (Value.num jrZero) := by
  constructor
  · exact (C9_nonnumeric_zero_contribution "v" "A" [("v", Value.str "abc")] []
      ⟨"", "", "", "", ""⟩).1 (by decide)
  · exact ((C9_nonnumeric_zero_contribution "v" "A" [("v", Value.str "abc")]
      [[("g", Value.str "A"), ("v", Value.str "abc")],
       [("g", Value.str "B"), ("v", Value.num ⟨10, 1⟩)]]
      ⟨"", "sum", "g", "v", "bar"⟩).2.1 rfl (by decide) (by decide) (by decide) (by decide)
      [("g", Value.str "A"), ("total_v", Value.num jrZero)] (by decide) (by decide)).1 rfl

lemma sortResult_singleton (gbf : String) (r : Row) : sortResult gbf [r] = [r] := by
  simp only [sortResult]
  rcases (r.map Prod.fst).find? (fun k => k ≠ gbf) with _ | vk
  · rfl
  · simp [sortDescBy, insertDesc]

lemma foldl_stepGroup_single (g f : String) (rows : List Row) (key : String) (a : GroupAcc)
    (h : ∀ r ∈ rows, groupKey g r = key) :
    ∃ s, rows.foldl (stepGroup g f) [(key, a)] = [(key, ⟨s, a.count + rows.length⟩)] := by
  induction rows generalizing a with
  | nil =>
      refine ⟨a.sum, ?_⟩
      simp
  | cons r rs ih =>
      have hstep : stepGroup g f [(key, a)] r =
          [(key, ⟨jrAdd a.sum (rowContribution f r), a.count + 1⟩)] := by
        unfold stepGroup updateGroup
        rw [h r (List.mem_cons_self r rs), if_pos rfl]
      obtain ⟨s, hs⟩ := ih ⟨jrAdd a.sum (rowContribution f r), a.count + 1⟩
        (fun r' hr' => h r' (List.mem_cons_of_mem r hr'))
      refine ⟨s, ?_⟩
      simp only [List.foldl_cons, hstep, hs, List.length_cons]
      have : a.count + 1 + rs.length = a.count + (rs.length + 1) := by omega
      rw [this]

/-- Claim C10, counterexample: the claim says that whenever the group-by
field names a column present in no row, aggregation returns a single
record **whose key is "Unknown"**.  When the group-by field collides
with the synthesized aggregate column name, the aggregate value
overwrites the group key: grouping `[{a:1}]` by the (absent) column
"count" with a count aggregation returns `[{count: 1}]` — a single
record carrying no "Unknown" at all. -/
theorem C10_counterexample :
    executeBasicSQL [[("a", Value.num ⟨1, 1⟩)]] ⟨"", "count", "count", "", "bar"⟩ =
      [[("count", Value.num ⟨1, 1⟩)]] ∧
    Value.str "Unknown" ∉ ([("count", Value.num ⟨1, 1⟩)] : Row).map Prod.snd := by
  refine ⟨by decide, by decide⟩

/-- Claim C10, amended: a row whose value at the group-by column is
missing, null, or the empty string is aggregated under the group key
"Unknown" rather than causing an error; and when the group-by field
names a column present in no row **and differs from the synthesized
aggregate column name** (`count` / `total_<f>` / `avg_<f>`), the
aggregation returns exactly one record, carrying the group key
"Unknown" under the group-by field, covering all rows — in particular a
count aggregation reports the full row count.  (When the names collide
the aggregate value overwrites the group key, as the counterexample
shows.) -/
theorem C10_amended_unknown_group (g : String) (row : Row) (ds : List Row)
    (qa : QueryIntent) :
    ((lookupVal row g = none ∨ lookupVal row g = some Value.null ∨
      lookupVal row g = some (Value.str "")) → groupKey g row = "Unknown") ∧
    (qa.groupByField ≠ "" →
      aggColName qa.aggregationType qa.aggregateField ≠ qa.groupByField →
      ds ≠ [] → (∀ r ∈ ds, lookupVal r qa.groupByField = none) →
      ∃ v, executeBasicSQL ds qa =
          [[(qa.groupByField, Value.str "Unknown"),
            (aggColName qa.aggregationType qa.aggregateField, v)]] ∧
        (qa.aggregationType ≠ "sum" → qa.aggregationType ≠ "avg" →
          v = Value.num ⟨ds.length, 1⟩)) := by
  constructor
  · intro h
    unfold groupKey
    rcases h with h | h | h <;> rw [h] <;> simp [jsTruthy]
  · intro hg hname hne hall
    rcases ds with _ | ⟨r, rs⟩
    · exact absurd rfl hne
    have hkey : ∀ r' ∈ (r :: rs), groupKey qa.groupByField r' = "Unknown" := by
      intro r' hr'
      unfold groupKey
      rw [hall r' hr']
    have hstep1 : stepGroup qa.groupByField qa.aggregateField [] r =
        [("Unknown", ⟨rowContribution qa.aggregateField r, 1⟩)] := by
      unfold stepGroup updateGroup
      rw [hkey r (List.mem_cons_self r rs)]
    obtain ⟨s, hs⟩ := foldl_stepGroup_single qa.groupByField qa.aggregateField rs "Unknown"
      ⟨rowContribution qa.aggregateField r, 1⟩
      (fun r' hr' => hkey r' (List.mem_cons_of_mem r hr'))
    have hgn : ¬ (qa.groupByField = aggColName qa.aggregationType qa.aggregateField) :=
      fun hcontra => hname hcontra.symm
    have hrender : renderRow qa.aggregationType qa.groupByField qa.aggregateField "Unknown"
        ⟨s, 1 + rs.length⟩ =
        [(qa.groupByField, Value.str "Unknown"),
         (aggColName qa.aggregationType qa.aggregateField,
          aggColValue qa.aggregationType qa.aggregateField ⟨s, 1 + rs.length⟩)] := by
      simp only [renderRow, jsSet]
      rw [if_neg hgn]
    refine ⟨aggColValue qa.aggregationType qa.aggregateField ⟨s, 1 + rs.length⟩, ?_, ?_⟩
    · unfold executeBasicSQL
      rw [if_neg hg]
      simp only [List.foldl_cons, hstep1, hs, List.map_cons, List.map_nil, hrender]
      rw [sortResult_singleton, applyLimit_singleton]
    · intro h1 h2
      unfold aggColValue
      rw [if_neg (by simp [h1]), if_neg (by simp [h2])]
      simp only [List.length_cons]
      have : 1 + rs.length = rs.length + 1 := by omega
      rw [this]

/-- Claim C10, witness: grouping a two-row dataset by an absent column
"g" with a count aggregation yields the single record
`{g: "Unknown", count: 2}`, and a missing group value keys to
"Unknown". -/
theorem C10_witness :
    groupKey "g" [("x", Value.num ⟨1, 1⟩)] = "Unknown" ∧
    executeBasicSQL [[("x", Value.num ⟨1, 1⟩)], [("y", Value.str "hi")]]
      ⟨"", "count", "g", "", "bar"⟩ =
      [[("g", Value.str "Unknown"), ("count", Value.num ⟨2, 1⟩)]] := by
  constructor
  · exact (C10_amended_unknown_group "g" [("x", Value.num ⟨1, 1⟩)] [] ⟨"", "", "", "", ""⟩).1
      (Or.inl (by decide))
  · obtain ⟨v, heq, hv⟩ := (C10_amended_unknown_group "g" [("x", Value.num ⟨1, 1⟩)]
      [[("x", Value.num ⟨1, 1⟩)], [("y", Value.str "hi")]]
      ⟨"", "count", "g", "", "bar"⟩).2 (by decide) (by decide) (by decide) (by decide)
    rw [hv (by decide) (by decide)] at heq
    exact heq
